import Mathlib

/-!
Verification of the `useWebRTC` hook of the Drop peer-to-peer file
transfer application (`src/frontend/next.config.ts`, hook section).

The hook's React state and refs are embedded as one record `HookState`.
Byte sequences are `List Nat`.  The data-channel message stream is the
inductive `DataMessage` (a text message that parses to a metadata object,
a raw binary chunk, or any other text).  Progress percentages are exact
rationals, mirroring the JavaScript arithmetic `transferred / total * 100`
(with the one divergence that `0 / 0` is `0` here and `NaN` in JS; both
differ from `100`, which is what the affected claim is about).
-/

namespace Drop

/-- `readyState` of an `RTCDataChannel` (external collaborator; only the
comparison with `'open'` matters to the hook). -/
inductive ChannelReadyState
  | connecting
  | opened
  | closing
  | closed
deriving DecidableEq, Repr

/-- `FileTransferProgress` as declared in the hook.  `progress` is the exact
rational value of `transferredSize / totalSize * 100`. -/
structure FileTransferProgress where
  fileName : String
  progress : ℚ
  totalSize : Nat
  transferredSize : Nat
  isReceiving : Bool
deriving DecidableEq, Repr

/-- `ReceivedFile` as declared in the hook. -/
structure ReceivedFile where
  name : String
  size : Nat
  mimeType : String
  data : List Nat
deriving DecidableEq, Repr

/-- The `receivingFile` ref's record type. -/
structure ReceivingFile where
  name : String
  size : Nat
  mimeType : String
  receivedSize : Nat
  chunks : List (List Nat)
deriving DecidableEq, Repr

/-- Model of the external `RTCPeerConnection` collaborator, at its contract
boundary: it holds the applied remote/local descriptions and the
successfully added connectivity candidates.  `closed` records that
`close()` was called. -/
structure PeerConn where
  remoteDescription : Option String
  localDescription : Option String
  candidates : List String
  closed : Bool
deriving DecidableEq, Repr

/-- A fresh `RTCPeerConnection` as produced by `initializePeerConnection`. -/
def PeerConn.fresh : PeerConn :=
  { remoteDescription := none, localDescription := none, candidates := [], closed := false }

/-- `addIceCandidate`, modelled from the external collaborator's contract:
adding a remote connectivity candidate before any remote description has
been applied is rejected (the returned promise fails); afterwards the
candidate is recorded.  Payloads are opaque strings. -/
def PeerConn.addIceCandidate (pc : PeerConn) (c : String) : Option PeerConn :=
  match pc.remoteDescription with
  | none => none
  | some _ => some { pc with candidates := pc.candidates ++ [c] }

/-- The whole observable state of one `useWebRTC` hook instance: the five
`useState` cells plus the `sessionId`, `pollingInterval`, `dataChannel`,
`peerConnection` and `receivingFile` refs.  `pollingActive` abstracts
whether `pollingInterval.current` holds a live interval. -/
structure HookState where
  isConnected : Bool
  isConnecting : Bool
  transferProgress : Option FileTransferProgress
  error : Option String
  receivedFiles : List ReceivedFile
  sessionId : Option String
  pollingActive : Bool
  dataChannel : Option ChannelReadyState
  peerConnection : Option PeerConn
  receivingFile : Option ReceivingFile
deriving DecidableEq, Repr

/-- The state a freshly mounted hook starts in (all `useState` initial
values and `null` refs). -/
def initialState : HookState :=
  { isConnected := false
    isConnecting := false
    transferProgress := none
    error := none
    receivedFiles := []
    sessionId := none
    pollingActive := false
    dataChannel := none
    peerConnection := none
    receivingFile := none }

/-- One message arriving on the data channel, after the type dispatch
`handleIncomingData` performs: a string that JSON-parses to an object with
`type = 'metadata'`, or a binary (`ArrayBuffer`) chunk, or any other
string (unparsable, or parsed with a different `type` tag). -/
inductive DataMessage
  | metadata (name : String) (size : Nat) (mimeType : String)
  | binary (data : List Nat)
  | otherText
deriving DecidableEq, Repr

/-- `handleIncomingData`: processes one channel message.  Returns the new
hook state together with the list of non-null values passed to
`setTransferProgress` during the call (the progress trace). -/
def handleIncomingData (st : HookState) (m : DataMessage) :
    HookState × List FileTransferProgress :=
  match m with
  | .metadata name size mimeType =>
      let p : FileTransferProgress :=
        { fileName := name, progress := 0, totalSize := size,
          transferredSize := 0, isReceiving := true }
      ({ st with
          receivingFile := some
            { name := name, size := size, mimeType := mimeType,
              receivedSize := 0, chunks := [] },
          transferProgress := some p }, [p])
  | .otherText => (st, [])
  | .binary d =>
      match st.receivingFile with
      | none => (st, [])
      | some rf =>
          let rf' : ReceivingFile :=
            { rf with receivedSize := rf.receivedSize + d.length,
                      chunks := rf.chunks ++ [d] }
          let p : FileTransferProgress :=
            { fileName := rf.name,
              progress := (rf'.receivedSize : ℚ) / (rf.size : ℚ) * 100,
              totalSize := rf.size, transferredSize := rf'.receivedSize,
              isReceiving := true }
          if rf'.receivedSize ≥ rf.size then
            let completeFile := rf'.chunks.flatten
            let newFile : ReceivedFile :=
              { name := rf.name, size := rf.size, mimeType := rf.mimeType,
                data := completeFile }
            ({ st with
                receivedFiles := st.receivedFiles ++ [newFile],
                transferProgress := none,
                receivingFile := none }, [p])
          else
            ({ st with receivingFile := some rf',
                       transferProgress := some p }, [p])

/-- Fold `handleIncomingData` over a message sequence, accumulating the
progress trace. -/
def processMessagesT (st : HookState) (msgs : List DataMessage) :
    HookState × List FileTransferProgress :=
  match msgs with
  | [] => (st, [])
  | m :: ms =>
      let r := handleIncomingData st m
      let rest := processMessagesT r.1 ms
      (rest.1, r.2 ++ rest.2)

/-- The hook state after feeding a message sequence into the receive path. -/
def processMessages (st : HookState) (msgs : List DataMessage) : HookState :=
  (processMessagesT st msgs).1

/-- The chunk bound used by `sendFile`. -/
def CHUNK_SIZE : Nat := 16384

/-- An input `File`: its `size` is the length of its byte content. -/
structure FileModel where
  name : String
  mimeType : String
  content : List Nat
deriving DecidableEq, Repr

def FileModel.size (f : FileModel) : Nat := f.content.length

/-- `file.slice(offset, offset + CHUNK_SIZE)` on a byte list. -/
def sliceAt (content : List Nat) (offset : Nat) : List Nat :=
  (content.drop offset).take CHUNK_SIZE

/-- The `reader.onload` / `readNextChunk` loop of `sendFile`, started at a
given `offset`: slices `file.slice(offset, offset + CHUNK_SIZE)`, sends it
as a binary message, and continues while `offset + CHUNK_SIZE < totalSize`.
This function is the loop's stream of sent chunks, in send order. -/
def sendChunksLoop (content : List Nat) (offset : Nat) : List (List Nat) :=
  let slice := sliceAt content offset
  if offset + CHUNK_SIZE < content.length then
    slice :: sendChunksLoop content (offset + CHUNK_SIZE)
  else
    [slice]
termination_by content.length - offset
decreasing_by simp only [CHUNK_SIZE] at *; omega

/-- The same `reader.onload` loop, as its stream of `setTransferProgress`
values: after sending each slice it adds the slice's byte length to
`transferredSize` and sets progress to `transferredSize / totalSize * 100`. -/
def sendTraceLoop (content : List Nat) (sname : String) (totalSize : Nat)
    (transferredSize offset : Nat) : List FileTransferProgress :=
  let slice := sliceAt content offset
  let transferred' := transferredSize + slice.length
  let p : FileTransferProgress :=
    { fileName := sname, progress := (transferred' : ℚ) / (totalSize : ℚ) * 100,
      totalSize := totalSize, transferredSize := transferred',
      isReceiving := false }
  if offset + CHUNK_SIZE < content.length then
    p :: sendTraceLoop content sname totalSize transferred' (offset + CHUNK_SIZE)
  else
    [p]
termination_by content.length - offset
decreasing_by simp only [CHUNK_SIZE] at *; omega

/-- The outcome of a `sendFile` call: the hook state when the call (and its
reader loop) has finished, the data-channel messages emitted in order, the
non-null progress values set, and the error thrown (if any). -/
structure SendResult where
  state : HookState
  messages : List DataMessage
  trace : List FileTransferProgress
  thrown : Option String
deriving DecidableEq, Repr

/-- `sendFile`: throws `'Data channel not ready'` before touching anything
unless the data channel exists and is open; otherwise sets progress to 0,
sends one metadata message, then the chunks via the reader loop, and
clears progress when the loop reaches the end of the file. -/
def sendFile (st : HookState) (f : FileModel) : SendResult :=
  if st.dataChannel = some ChannelReadyState.opened then
    let totalSize := f.size
    let p0 : FileTransferProgress :=
      { fileName := f.name, progress := 0, totalSize := totalSize,
        transferredSize := 0, isReceiving := false }
    { state := { st with transferProgress := none }
      messages := DataMessage.metadata f.name f.size f.mimeType ::
        (sendChunksLoop f.content 0).map DataMessage.binary
      trace := p0 :: sendTraceLoop f.content f.name totalSize 0 0
      thrown := none }
  else
    { state := st, messages := [], trace := [], thrown := some "Data channel not ready" }

/-- A signaling message relayed by the backend. -/
structure SignalingMessage where
  message_type : String
  payload : String
deriving DecidableEq, Repr

/-- `handleSignalingMessage`: dispatches one relayed message on
`message_type`.  Descriptor payloads are opaque; `createAnswer` is
modelled as producing the answer descriptor for the applied offer.
Returns the new hook state and the signaling messages sent back through
the relay.  A failure of the awaited peer-connection operation (for a
candidate: `addIceCandidate` rejecting because no remote description is
applied yet) is caught and surfaced as the user-visible error
`'Failed to handle signaling message'`. -/
def handleSignalingMessage (st : HookState) (msg : SignalingMessage) :
    HookState × List SignalingMessage :=
  match st.peerConnection with
  | none => (st, [])
  | some pc =>
      if msg.message_type = "offer" then
        let answer := "answer:" ++ msg.payload
        let pc' := { pc with remoteDescription := some msg.payload,
                             localDescription := some answer }
        ({ st with peerConnection := some pc' },
          [{ message_type := "answer", payload := answer }])
      else if msg.message_type = "answer" then
        ({ st with peerConnection := some { pc with remoteDescription := some msg.payload } }, [])
      else if msg.message_type = "candidate" then
        match pc.addIceCandidate msg.payload with
        | some pc' => ({ st with peerConnection := some pc' }, [])
        | none => ({ st with error := some "Failed to handle signaling message" }, [])
      else
        (st, [])

/-- `joinSession`: sets `isConnecting`, clears the error, adopts the given
code as session id, creates a fresh peer connection and starts polling;
returns the code.  The third component lists the relay requests the call
itself performs (none — `joinSession` never contacts the relay). -/
def joinSession (st : HookState) (code : String) :
    HookState × String × List String :=
  ({ st with
      isConnecting := true
      error := none
      sessionId := some code
      peerConnection := some PeerConn.fresh
      pollingActive := true }, code, [])

/-- `cleanup`: stops polling, closes the data channel and peer connection
if present, and resets the state cells and refs it touches.  (It does not
touch `error`.) -/
def cleanup (st : HookState) : HookState :=
  { st with
      pollingActive := false
      dataChannel := st.dataChannel.map (fun _ => ChannelReadyState.closed)
      peerConnection := st.peerConnection.map (fun pc => { pc with closed := true })
      isConnected := false
      isConnecting := false
      transferProgress := none
      receivedFiles := []
      sessionId := none
      receivingFile := none }

/-! ## Concrete states used by counterexamples and witnesses -/

/-- An active receive record: 3 of 10 declared bytes arrived. -/
def midStreamFile : ReceivingFile :=
  { name := "a.bin", size := 10, mimeType := "application/x-bin",
    receivedSize := 3, chunks := [[1, 2, 3]] }

/-- A hook state in the middle of receiving a 10-byte file (3 bytes in). -/
def midStreamState : HookState :=
  { initialState with
      receivingFile := some midStreamFile
      transferProgress := some
        { fileName := "a.bin", progress := 30, totalSize := 10,
          transferredSize := 3, isReceiving := true } }

/-- A hook state whose active receive record declares 1 byte. -/
def shortDeclaredState : HookState :=
  { initialState with
      receivingFile := some
        { name := "f.bin", size := 1, mimeType := "application/x-bin",
          receivedSize := 0, chunks := [] } }

/-- A hook state carrying a user-visible error. -/
def erroredState : HookState :=
  { initialState with error := some "Connection failed" }

/-- The receiver's state right after `joinSession initialState "ABC123"`:
fresh peer connection, no remote description applied yet. -/
def joinedState : HookState := (joinSession initialState "ABC123").1

/-- A hook state whose data channel is open. -/
def openChannelState : HookState :=
  { initialState with dataChannel := some ChannelReadyState.opened,
                      isConnected := true }

/-! ## Helper lemmas -/

theorem sliceAt_length (content : List Nat) (offset : Nat) :
    (sliceAt content offset).length = min CHUNK_SIZE (content.length - offset) := by
  simp [sliceAt]

theorem processMessages_nil (st : HookState) : processMessages st [] = st := rfl

theorem processMessages_cons (st : HookState) (m : DataMessage) (ms : List DataMessage) :
    processMessages st (m :: ms) = processMessages (handleIncomingData st m).1 ms := rfl

theorem processMessagesT_snd_nil (st : HookState) : (processMessagesT st []).2 = [] := rfl

theorem processMessagesT_snd_cons (st : HookState) (m : DataMessage) (ms : List DataMessage) :
    (processMessagesT st (m :: ms)).2 =
      (handleIncomingData st m).2 ++ (processMessagesT (handleIncomingData st m).1 ms).2 := rfl

/-- The metadata branch of `handleIncomingData`, as an equation. -/
theorem handleIncomingData_metadata (st : HookState) (name : String) (size : Nat)
    (mimeType : String) :
    handleIncomingData st (DataMessage.metadata name size mimeType) =
      ({ st with
          receivingFile := some
            { name := name, size := size, mimeType := mimeType,
              receivedSize := 0, chunks := [] },
          transferProgress := some
            { fileName := name, progress := 0, totalSize := size,
              transferredSize := 0, isReceiving := true } },
        [{ fileName := name, progress := 0, totalSize := size,
           transferredSize := 0, isReceiving := true }]) := rfl

/-- The binary branch of `handleIncomingData` when the chunk does not yet
reach the declared size. -/
theorem handleIncomingData_binary_incomplete (st : HookState) (rf : ReceivingFile)
    (d : List Nat) (h : st.receivingFile = some rf)
    (hlt : rf.receivedSize + d.length < rf.size) :
    handleIncomingData st (DataMessage.binary d) =
      ({ st with
          receivingFile := some
            { rf with receivedSize := rf.receivedSize + d.length,
                      chunks := rf.chunks ++ [d] },
          transferProgress := some
            { fileName := rf.name,
              progress := ((rf.receivedSize + d.length : Nat) : ℚ) / (rf.size : ℚ) * 100,
              totalSize := rf.size, transferredSize := rf.receivedSize + d.length,
              isReceiving := true } },
        [{ fileName := rf.name,
           progress := ((rf.receivedSize + d.length : Nat) : ℚ) / (rf.size : ℚ) * 100,
           totalSize := rf.size, transferredSize := rf.receivedSize + d.length,
           isReceiving := true }]) := by
  simp only [handleIncomingData, h]
  rw [if_neg (by omega : ¬ rf.receivedSize + d.length ≥ rf.size)]

/-- The binary branch of `handleIncomingData` when the chunk reaches (or
overshoots) the declared size: the file is materialized. -/
theorem handleIncomingData_binary_complete (st : HookState) (rf : ReceivingFile)
    (d : List Nat) (h : st.receivingFile = some rf)
    (hge : rf.size ≤ rf.receivedSize + d.length) :
    handleIncomingData st (DataMessage.binary d) =
      ({ st with
          receivedFiles := st.receivedFiles ++
            [{ name := rf.name, size := rf.size, mimeType := rf.mimeType,
               data := (rf.chunks ++ [d]).flatten }],
          transferProgress := none,
          receivingFile := none },
        [{ fileName := rf.name,
           progress := ((rf.receivedSize + d.length : Nat) : ℚ) / (rf.size : ℚ) * 100,
           totalSize := rf.size, transferredSize := rf.receivedSize + d.length,
           isReceiving := true }]) := by
  simp only [handleIncomingData, h]
  rw [if_pos (by omega : rf.receivedSize + d.length ≥ rf.size)]

/-- State component of `handleIncomingData_binary_incomplete`. -/
theorem handleIncomingData_fst_incomplete (st : HookState) (rf : ReceivingFile)
    (d : List Nat) (h : st.receivingFile = some rf)
    (hlt : rf.receivedSize + d.length < rf.size) :
    (handleIncomingData st (DataMessage.binary d)).1 =
      { st with
          receivingFile := some
            { rf with receivedSize := rf.receivedSize + d.length,
                      chunks := rf.chunks ++ [d] },
          transferProgress := some
            { fileName := rf.name,
              progress := ((rf.receivedSize + d.length : Nat) : ℚ) / (rf.size : ℚ) * 100,
              totalSize := rf.size, transferredSize := rf.receivedSize + d.length,
              isReceiving := true } } := by
  rw [handleIncomingData_binary_incomplete st rf d h hlt]

/-- Trace component of `handleIncomingData_binary_incomplete`. -/
theorem handleIncomingData_snd_incomplete (st : HookState) (rf : ReceivingFile)
    (d : List Nat) (h : st.receivingFile = some rf)
    (hlt : rf.receivedSize + d.length < rf.size) :
    (handleIncomingData st (DataMessage.binary d)).2 =
      [{ fileName := rf.name,
         progress := ((rf.receivedSize + d.length : Nat) : ℚ) / (rf.size : ℚ) * 100,
         totalSize := rf.size, transferredSize := rf.receivedSize + d.length,
         isReceiving := true }] := by
  rw [handleIncomingData_binary_incomplete st rf d h hlt]

/-- State component of `handleIncomingData_binary_complete`. -/
theorem handleIncomingData_fst_complete (st : HookState) (rf : ReceivingFile)
    (d : List Nat) (h : st.receivingFile = some rf)
    (hge : rf.size ≤ rf.receivedSize + d.length) :
    (handleIncomingData st (DataMessage.binary d)).1 =
      { st with
          receivedFiles := st.receivedFiles ++
            [{ name := rf.name, size := rf.size, mimeType := rf.mimeType,
               data := (rf.chunks ++ [d]).flatten }],
          transferProgress := none,
          receivingFile := none } := by
  rw [handleIncomingData_binary_complete st rf d h hge]

/-- Trace component of `handleIncomingData_binary_complete`. -/
theorem handleIncomingData_snd_complete (st : HookState) (rf : ReceivingFile)
    (d : List Nat) (h : st.receivingFile = some rf)
    (hge : rf.size ≤ rf.receivedSize + d.length) :
    (handleIncomingData st (DataMessage.binary d)).2 =
      [{ fileName := rf.name,
         progress := ((rf.receivedSize + d.length : Nat) : ℚ) / (rf.size : ℚ) * 100,
         totalSize := rf.size, transferredSize := rf.receivedSize + d.length,
         isReceiving := true }] := by
  rw [handleIncomingData_binary_complete st rf d h hge]

/-- Unfolding of `sendChunksLoop` in the continuing case. -/
theorem sendChunksLoop_pos (content : List Nat) (offset : Nat)
    (h : offset + CHUNK_SIZE < content.length) :
    sendChunksLoop content offset =
      sliceAt content offset :: sendChunksLoop content (offset + CHUNK_SIZE) := by
  rw [sendChunksLoop]
  rw [if_pos h]

/-- Unfolding of `sendChunksLoop` in the final (last chunk) case. -/
theorem sendChunksLoop_neg (content : List Nat) (offset : Nat)
    (h : ¬ offset + CHUNK_SIZE < content.length) :
    sendChunksLoop content offset = [sliceAt content offset] := by
  rw [sendChunksLoop]
  rw [if_neg h]

/-- Unfolding of `sendTraceLoop` in the continuing case. -/
theorem sendTraceLoop_pos (content : List Nat) (sname : String) (totalSize t offset : Nat)
    (h : offset + CHUNK_SIZE < content.length) :
    sendTraceLoop content sname totalSize t offset =
      { fileName := sname,
        progress := ((t + (sliceAt content offset).length : Nat) : ℚ) / (totalSize : ℚ) * 100,
        totalSize := totalSize,
        transferredSize := t + (sliceAt content offset).length,
        isReceiving := false } ::
          sendTraceLoop content sname totalSize (t + (sliceAt content offset).length)
            (offset + CHUNK_SIZE) := by
  rw [sendTraceLoop]
  rw [if_pos h]

/-- Unfolding of `sendTraceLoop` in the final (last chunk) case. -/
theorem sendTraceLoop_neg (content : List Nat) (sname : String) (totalSize t offset : Nat)
    (h : ¬ offset + CHUNK_SIZE < content.length) :
    sendTraceLoop content sname totalSize t offset =
      [{ fileName := sname,
         progress := ((t + (sliceAt content offset).length : Nat) : ℚ) / (totalSize : ℚ) * 100,
         totalSize := totalSize,
         transferredSize := t + (sliceAt content offset).length,
         isReceiving := false }] := by
  rw [sendTraceLoop]
  rw [if_neg h]

/-- `sendFile` on an open channel, as an equation. -/
theorem sendFile_open (st : HookState) (f : FileModel)
    (h : st.dataChannel = some ChannelReadyState.opened) :
    sendFile st f =
      { state := { st with transferProgress := none }
        messages := DataMessage.metadata f.name f.size f.mimeType ::
          (sendChunksLoop f.content 0).map DataMessage.binary
        trace := { fileName := f.name, progress := 0, totalSize := f.size,
                   transferredSize := 0, isReceiving := false } ::
          sendTraceLoop f.content f.name f.size 0 0
        thrown := none } := by
  rw [sendFile]
  rw [if_pos h]

/-- The chunks `sendChunksLoop` emits from `offset` concatenate to exactly
the bytes of the file from `offset` on. -/
theorem sendChunksLoop_flatten (content : List Nat) (offset : Nat) :
    (sendChunksLoop content offset).flatten = content.drop offset := by
  induction offset using sendChunksLoop.induct content with
  | case1 offset h ih =>
      rw [sendChunksLoop_pos content offset h]
      rw [List.flatten_cons]
      rw [ih]
      have hd : List.drop (offset + CHUNK_SIZE) content
          = List.drop CHUNK_SIZE (List.drop offset content) := by
        rw [List.drop_drop, Nat.add_comm]
      rw [hd]
      exact List.take_append_drop _ _
  | case2 offset h =>
      rw [sendChunksLoop_neg content offset h]
      rw [List.flatten_cons]
      rw [List.flatten_nil, List.append_nil]
      rw [sliceAt]
      apply List.take_of_length_le
      rw [List.length_drop]
      omega

/-- Feeding any run of binary chunks whose total length still stays below
the declared size leaves `receivedFiles` untouched and just extends the
active receive record. -/
theorem processMessages_incomplete (cs : List (List Nat)) :
    ∀ (st : HookState) (rf : ReceivingFile), st.receivingFile = some rf →
    rf.receivedSize + (cs.map List.length).sum < rf.size →
    (processMessages st (cs.map DataMessage.binary)).receivedFiles = st.receivedFiles ∧
    (processMessages st (cs.map DataMessage.binary)).receivingFile =
      some { rf with receivedSize := rf.receivedSize + (cs.map List.length).sum,
                     chunks := rf.chunks ++ cs } := by
  induction cs with
  | nil =>
      intro st rf h _
      refine ⟨by rw [List.map_nil, processMessages_nil], ?_⟩
      rw [List.map_nil, processMessages_nil, h]
      simp only [List.map_nil, List.sum_nil, Nat.add_zero, List.append_nil]
  | cons c cs ih =>
      intro st rf h hlt
      rw [List.map_cons, processMessages_cons]
      rw [List.map_cons, List.sum_cons] at hlt
      have hc : rf.receivedSize + c.length < rf.size := by omega
      rw [handleIncomingData_binary_incomplete st rf c h hc]
      have hsum : rf.receivedSize + c.length + (cs.map List.length).sum < rf.size := by
        omega
      constructor
      · exact (ih _ _ rfl hsum).1
      · refine Eq.trans (ih _ _ rfl hsum).2 ?_
        dsimp only
        rw [List.map_cons, List.sum_cons]
        congr 1
        congr 1
        · omega
        · rw [List.append_assoc, List.singleton_append]

/-- Feeding the chunks that `sendChunksLoop` emits from `offset` into the
receive path, starting from a state whose active receive record declares
exactly `content.length` bytes of which `offset` have arrived, completes
the file: the concatenation of all recorded chunks is appended to
`receivedFiles` and the transfer state is cleared. -/
theorem receive_chunks_state (content : List Nat) :
    ∀ offset, ∀ (st : HookState) (rf : ReceivingFile),
    st.receivingFile = some rf → rf.size = content.length →
    rf.receivedSize = offset → offset ≤ content.length →
    processMessages st ((sendChunksLoop content offset).map DataMessage.binary) =
      { st with
          receivedFiles := st.receivedFiles ++
            [{ name := rf.name, size := rf.size, mimeType := rf.mimeType,
               data := (rf.chunks ++ sendChunksLoop content offset).flatten }],
          transferProgress := none,
          receivingFile := none } := by
  intro offset
  induction offset using sendChunksLoop.induct content with
  | case1 offset h ih =>
      intro st rf hrf hsize hrec hle
      rw [sendChunksLoop_pos content offset h]
      rw [List.map_cons, processMessages_cons]
      have hlen : (sliceAt content offset).length = CHUNK_SIZE := by
        rw [sliceAt_length]; omega
      have hlt : rf.receivedSize + (sliceAt content offset).length < rf.size := by
        rw [hlen, hrec, hsize]; omega
      rw [handleIncomingData_binary_incomplete st rf (sliceAt content offset) hrf hlt]
      have hrec' : rf.receivedSize + (sliceAt content offset).length = offset + CHUNK_SIZE := by
        rw [hrec, hlen]
      refine Eq.trans (ih _ _ rfl hsize hrec' (by omega)) ?_
      dsimp only
      rw [List.append_assoc, List.singleton_append]
  | case2 offset h =>
      intro st rf hrf hsize hrec hle
      rw [sendChunksLoop_neg content offset h]
      rw [List.map_cons, List.map_nil, processMessages_cons]
      have hge : rf.size ≤ rf.receivedSize + (sliceAt content offset).length := by
        rw [sliceAt_length, hrec, hsize]; omega
      rw [handleIncomingData_binary_complete st rf (sliceAt content offset) hrf hge]
      rw [processMessages_nil]

/-- If a list has a known last element, consing preserves it. -/
theorem getLast?_cons_of_getLast? {α : Type} (a : α) (l : List α) (q : α)
    (h : l.getLast? = some q) : (a :: l).getLast? = some q := by
  cases l with
  | nil => simp at h
  | cons b m =>
      rw [List.getLast?_cons_cons]
      exact h

/-- A progress percentage computed from a transferred/total pair lies in
[0, 100] when transferred ≤ total and total is positive. -/
theorem progress_bounds (ts total : Nat) (hts : ts ≤ total) (hpos : 0 < total) :
    0 ≤ (ts : ℚ) / (total : ℚ) * 100 ∧ (ts : ℚ) / (total : ℚ) * 100 ≤ 100 := by
  constructor
  · positivity
  · have h1 : (ts : ℚ) / (total : ℚ) ≤ 1 := by
      rw [div_le_one (by exact_mod_cast hpos)]
      exact_mod_cast hts
    calc (ts : ℚ) / (total : ℚ) * 100 ≤ 1 * 100 :=
          mul_le_mul_of_nonneg_right h1 (by norm_num)
      _ = 100 := one_mul 100

/-- The progress values `sendFile`'s reader loop sets, starting at
`offset` bytes already transferred: all entries carry the file's total
size, compute `progress` as `transferredSize / totalSize * 100`, have
`transferredSize` between `offset` and the file length and non-decreasing,
and the final entry's `transferredSize` is exactly the file length. -/
theorem sendTraceLoop_spec (content : List Nat) (sname : String) (totalSize : Nat)
    (htot : totalSize = content.length) :
    ∀ fuel offset, content.length - offset ≤ fuel → offset ≤ content.length →
    (∀ p ∈ sendTraceLoop content sname totalSize offset offset,
        p.totalSize = content.length ∧ p.isReceiving = false ∧
        p.progress = (p.transferredSize : ℚ) / (p.totalSize : ℚ) * 100 ∧
        offset ≤ p.transferredSize ∧ p.transferredSize ≤ content.length) ∧
    List.Chain' (fun a b => a.transferredSize ≤ b.transferredSize)
      (sendTraceLoop content sname totalSize offset offset) ∧
    (∃ q, (sendTraceLoop content sname totalSize offset offset).getLast? = some q ∧
        q.transferredSize = content.length ∧ q.totalSize = content.length ∧
        q.progress = (q.transferredSize : ℚ) / (q.totalSize : ℚ) * 100) := by
  intro fuel
  induction fuel with
  | zero =>
      intro offset hf hle
      have hc : CHUNK_SIZE = 16384 := rfl
      have hneg : ¬ offset + CHUNK_SIZE < content.length := by omega
      rw [sendTraceLoop_neg content sname totalSize offset offset hneg]
      have hts : offset + (sliceAt content offset).length = content.length := by
        rw [sliceAt_length]; omega
      refine ⟨?_, List.chain'_singleton _, ?_⟩
      · intro p hp
        rw [List.mem_singleton] at hp
        subst hp
        exact ⟨htot, rfl, rfl, Nat.le_add_right _ _, le_of_eq hts⟩
      · exact ⟨_, rfl, hts, htot, rfl⟩
  | succ n ih =>
      intro offset hf hle
      have hc : CHUNK_SIZE = 16384 := rfl
      by_cases h : offset + CHUNK_SIZE < content.length
      · rw [sendTraceLoop_pos content sname totalSize offset offset h]
        have hlen : (sliceAt content offset).length = CHUNK_SIZE := by
          rw [sliceAt_length]; omega
        rw [hlen]
        obtain ⟨hall, hchain, q, hq, hqts, hqtot, hqp⟩ :=
          ih (offset + CHUNK_SIZE) (by omega) (by omega)
        refine ⟨?_, ?_, ?_⟩
        · intro p hp
          rcases List.mem_cons.mp hp with hp | hp
          · subst hp
            exact ⟨htot, rfl, rfl, Nat.le_add_right _ _, le_of_lt h⟩
          · obtain ⟨h1, h2, h3, h4, h5⟩ := hall p hp
            exact ⟨h1, h2, h3, by omega, h5⟩
        · rw [List.chain'_cons']
          refine ⟨?_, hchain⟩
          intro y hy
          have hmem := (hall y (List.mem_of_mem_head? hy)).2.2.2.1
          show offset + CHUNK_SIZE ≤ y.transferredSize
          omega
        · exact ⟨q, getLast?_cons_of_getLast? _ _ _ hq, hqts, hqtot, hqp⟩
      · rw [sendTraceLoop_neg content sname totalSize offset offset h]
        have hts : offset + (sliceAt content offset).length = content.length := by
          rw [sliceAt_length]; omega
        refine ⟨?_, List.chain'_singleton _, ?_⟩
        · intro p hp
          rw [List.mem_singleton] at hp
          subst hp
          exact ⟨htot, rfl, rfl, Nat.le_add_right _ _, le_of_eq hts⟩
        · exact ⟨_, rfl, hts, htot, rfl⟩

/-- The progress values the receive path sets while consuming the chunks
`sendChunksLoop` emits from `offset`, when the active receive record has
received `offset` of `content.length` declared bytes: every entry carries
the declared total size, computes `progress` as
`transferredSize / totalSize * 100`, has `transferredSize` between
`offset` and the file length, the sequence is non-decreasing, and the
final entry's `transferredSize` is exactly the file length. -/
theorem receive_chunks_trace (content : List Nat) :
    ∀ offset, ∀ (st : HookState) (rf : ReceivingFile),
    st.receivingFile = some rf → rf.size = content.length →
    rf.receivedSize = offset → offset ≤ content.length →
    (∀ p ∈ (processMessagesT st ((sendChunksLoop content offset).map DataMessage.binary)).2,
        p.totalSize = content.length ∧ p.isReceiving = true ∧
        p.progress = (p.transferredSize : ℚ) / (p.totalSize : ℚ) * 100 ∧
        offset ≤ p.transferredSize ∧ p.transferredSize ≤ content.length) ∧
    List.Chain' (fun a b => a.transferredSize ≤ b.transferredSize)
      (processMessagesT st ((sendChunksLoop content offset).map DataMessage.binary)).2 ∧
    (∃ q, (processMessagesT st
          ((sendChunksLoop content offset).map DataMessage.binary)).2.getLast? = some q ∧
        q.transferredSize = content.length ∧ q.totalSize = content.length ∧
        q.progress = (q.transferredSize : ℚ) / (q.totalSize : ℚ) * 100) := by
  intro offset
  induction offset using sendChunksLoop.induct content with
  | case1 offset h ih =>
      intro st rf hrf hsize hrec hle
      rw [sendChunksLoop_pos content offset h]
      rw [List.map_cons, processMessagesT_snd_cons]
      have hlen : (sliceAt content offset).length = CHUNK_SIZE := by
        rw [sliceAt_length]; omega
      have hlt : rf.receivedSize + (sliceAt content offset).length < rf.size := by
        rw [hlen, hrec, hsize]; exact h
      rw [handleIncomingData_snd_incomplete st rf (sliceAt content offset) hrf hlt]
      rw [handleIncomingData_fst_incomplete st rf (sliceAt content offset) hrf hlt]
      rw [List.singleton_append]
      have hrec' : rf.receivedSize + (sliceAt content offset).length = offset + CHUNK_SIZE := by
        rw [hrec, hlen]
      obtain ⟨hall, hchain, q, hq, hqts, hqtot, hqp⟩ := ih
        { st with
            receivingFile := some
              { rf with receivedSize := rf.receivedSize + (sliceAt content offset).length,
                        chunks := rf.chunks ++ [sliceAt content offset] },
            transferProgress := some
              { fileName := rf.name,
                progress := ((rf.receivedSize + (sliceAt content offset).length : Nat) : ℚ) /
                  (rf.size : ℚ) * 100,
                totalSize := rf.size,
                transferredSize := rf.receivedSize + (sliceAt content offset).length,
                isReceiving := true } }
        { rf with receivedSize := rf.receivedSize + (sliceAt content offset).length,
                  chunks := rf.chunks ++ [sliceAt content offset] }
        rfl hsize hrec' (by omega)
      refine ⟨?_, ?_, ?_⟩
      · intro p hp
        rcases List.mem_cons.mp hp with hp | hp
        · subst hp
          refine ⟨hsize, rfl, rfl, ?_, ?_⟩
          · show offset ≤ rf.receivedSize + (sliceAt content offset).length
            omega
          · show rf.receivedSize + (sliceAt content offset).length ≤ content.length
            omega
        · obtain ⟨h1, h2, h3, h4, h5⟩ := hall p hp
          exact ⟨h1, h2, h3, by omega, h5⟩
      · rw [List.chain'_cons']
        refine ⟨?_, hchain⟩
        intro y hy
        have hmem := (hall y (List.mem_of_mem_head? hy)).2.2.2.1
        show rf.receivedSize + (sliceAt content offset).length ≤ y.transferredSize
        omega
      · exact ⟨q, getLast?_cons_of_getLast? _ _ _ hq, hqts, hqtot, hqp⟩
  | case2 offset h =>
      intro st rf hrf hsize hrec hle
      rw [sendChunksLoop_neg content offset h]
      rw [List.map_cons, List.map_nil, processMessagesT_snd_cons]
      have hge : rf.size ≤ rf.receivedSize + (sliceAt content offset).length := by
        rw [sliceAt_length, hrec, hsize]; omega
      rw [handleIncomingData_snd_complete st rf (sliceAt content offset) hrf hge]
      rw [handleIncomingData_fst_complete st rf (sliceAt content offset) hrf hge]
      rw [processMessagesT_snd_nil]
      rw [List.append_nil]
      have hts : rf.receivedSize + (sliceAt content offset).length = content.length := by
        rw [sliceAt_length, hrec]; omega
      refine ⟨?_, List.chain'_singleton _, ?_⟩
      · intro p hp
        rw [List.mem_singleton] at hp
        subst hp
        refine ⟨hsize, rfl, rfl, ?_, le_of_eq hts⟩
        show offset ≤ rf.receivedSize + (sliceAt content offset).length
        omega
      · exact ⟨_, rfl, hts, hsize, rfl⟩

/-! ## Theorems -/

/-- C3: if the data channel is not in the open state, `sendFile` fails
immediately with the channel-not-ready error: the hook state is returned
unchanged (in particular the transfer-progress state), and no metadata
message and no chunk is emitted on the channel. -/
theorem sendFile_channel_not_ready (st : HookState) (f : FileModel)
    (h : st.dataChannel ≠ some ChannelReadyState.opened) :
    sendFile st f =
      { state := st, messages := [], trace := [],
        thrown := some "Data channel not ready" } := by
  simp [sendFile, h]

theorem sendFile_channel_not_ready_witness :
    initialState.dataChannel ≠ some ChannelReadyState.opened ∧
    sendFile initialState { name := "a.txt", mimeType := "text/plain", content := [1, 2, 3] } =
      { state := initialState, messages := [], trace := [],
        thrown := some "Data channel not ready" } :=
  ⟨by decide,
    sendFile_channel_not_ready initialState
      { name := "a.txt", mimeType := "text/plain", content := [1, 2, 3] } (by decide)⟩

/-- C6: a binary chunk arriving while no receive record is active is
ignored: `handleIncomingData` returns the state completely unchanged (and
sets no progress value). -/
theorem orphan_chunk_ignored (st : HookState) (d : List Nat)
    (h : st.receivingFile = none) :
    handleIncomingData st (DataMessage.binary d) = (st, []) := by
  simp [handleIncomingData, h]

theorem orphan_chunk_ignored_witness :
    initialState.receivingFile = none ∧
    handleIncomingData initialState (DataMessage.binary [0, 1, 2]) = (initialState, []) :=
  ⟨rfl, orphan_chunk_ignored initialState [0, 1, 2] rfl⟩

/-- C9: `cleanup` discards all previously received files: afterwards
`receivedFiles` is the empty list, whatever had accumulated. -/
theorem cleanup_discards_received_files (st : HookState) :
    (cleanup st).receivedFiles = [] := rfl

/-- C10: `joinSession` never validates the code and never fails: for every
input string it adopts the code as the session id, starts polling, sets
`isConnecting`, clears the error, returns the code, and performs no relay
request of its own. -/
theorem joinSession_never_validates (st : HookState) (code : String) :
    (joinSession st code).1.sessionId = some code ∧
    (joinSession st code).1.pollingActive = true ∧
    (joinSession st code).1.isConnecting = true ∧
    (joinSession st code).1.error = none ∧
    (joinSession st code).2.1 = code ∧
    (joinSession st code).2.2 = [] :=
  ⟨rfl, rfl, rfl, rfl, rfl, rfl⟩

/-- C5 counterexample: a metadata message arriving mid-stream of another
file is not ignored — the active receive record is replaced by a record
for the new file. -/
theorem metadata_mid_stream_counterexample :
    (handleIncomingData midStreamState
        (DataMessage.metadata "b.bin" 5 "text/plain")).1.receivingFile ≠
      midStreamState.receivingFile := by
  decide

/-- C5 amended: a metadata message arriving while a receive of another
file is still in progress replaces the active receive record with a fresh
record for the new file and resets transfer progress to 0 for it; the
previously received partial data is silently discarded.  `receivedFiles`
is unchanged, no error is raised, and the channel is not torn down. -/
theorem metadata_mid_stream_overwrites (st : HookState) (rf : ReceivingFile)
    (name : String) (size : Nat) (mimeType : String)
    (h : st.receivingFile = some rf) (hmid : rf.receivedSize < rf.size) :
    (handleIncomingData st (DataMessage.metadata name size mimeType)).1.receivingFile =
      some { name := name, size := size, mimeType := mimeType,
             receivedSize := 0, chunks := [] } ∧
    (handleIncomingData st (DataMessage.metadata name size mimeType)).1.transferProgress =
      some { fileName := name, progress := 0, totalSize := size,
             transferredSize := 0, isReceiving := true } ∧
    (handleIncomingData st (DataMessage.metadata name size mimeType)).1.receivedFiles =
      st.receivedFiles ∧
    (handleIncomingData st (DataMessage.metadata name size mimeType)).1.error = st.error ∧
    (handleIncomingData st (DataMessage.metadata name size mimeType)).1.dataChannel =
      st.dataChannel ∧
    (handleIncomingData st (DataMessage.metadata name size mimeType)).1.isConnected =
      st.isConnected :=
  ⟨rfl, rfl, rfl, rfl, rfl, rfl⟩

theorem metadata_mid_stream_overwrites_witness :
    midStreamState.receivingFile = some
      { name := "a.bin", size := 10, mimeType := "application/x-bin",
        receivedSize := 3, chunks := [[1, 2, 3]] } ∧ (3 : Nat) < 10 ∧
    (handleIncomingData midStreamState
        (DataMessage.metadata "b.bin" 5 "text/plain")).1.receivingFile =
      some { name := "b.bin", size := 5, mimeType := "text/plain",
             receivedSize := 0, chunks := [] } := by
  refine ⟨rfl, by decide, ?_⟩
  exact (metadata_mid_stream_overwrites midStreamState
    { name := "a.bin", size := 10, mimeType := "application/x-bin",
      receivedSize := 3, chunks := [[1, 2, 3]] }
    "b.bin" 5 "text/plain" rfl (by decide)).1

/-- C7 counterexample: `cleanup` does not clear the user-visible error, so
the state after `cleanup` is not equivalent to the initial `Idle` state
(which has no error) when an error was present. -/
theorem cleanup_error_counterexample :
    (cleanup erroredState).error ≠ none := by decide

/-- C7 amended: `cleanup` is idempotent and total: a second `cleanup`
changes nothing, `cleanup` on the initial state is the identity, and after
any `cleanup` the hook is back to the initial `Idle` values —
`isConnected`/`isConnecting` false, no transfer progress, no received
files, no session id, no receive record, polling stopped — except that a
pre-existing user-visible error is preserved, not cleared. -/
theorem cleanup_idempotent (st : HookState) :
    cleanup (cleanup st) = cleanup st ∧
    cleanup initialState = initialState ∧
    (cleanup st).isConnected = false ∧
    (cleanup st).isConnecting = false ∧
    (cleanup st).transferProgress = none ∧
    (cleanup st).receivedFiles = [] ∧
    (cleanup st).sessionId = none ∧
    (cleanup st).receivingFile = none ∧
    (cleanup st).pollingActive = false ∧
    (cleanup st).error = st.error := by
  refine ⟨?_, by decide, rfl, rfl, rfl, rfl, rfl, rfl, rfl, rfl⟩
  cases hdc : st.dataChannel <;> cases hpc : st.peerConnection <;>
    simp [cleanup, hdc, hpc]

/-- C8 counterexample: delivering a connectivity-candidate message before
any offer/answer has been applied raises the user-visible error
`'Failed to handle signaling message'` (the candidate add fails, is
caught, and the candidate is dropped rather than buffered). -/
theorem candidate_before_offer_counterexample :
    (handleSignalingMessage joinedState
        { message_type := "candidate", payload := "cand1" }).1.error =
      some "Failed to handle signaling message" := by
  decide

/-- C8 amended: a candidate delivered before the offer/answer it follows
is not buffered — the add fails, the failure is caught, the user-visible
error `'Failed to handle signaling message'` is raised, and the candidate
is dropped (the peer connection is unchanged, nothing is sent).  The
bootstrap itself is not torn down: a subsequent offer is still applied
normally and answered. -/
theorem candidate_before_description_dropped (st : HookState) (pc : PeerConn)
    (c o : String) (h : st.peerConnection = some pc)
    (hrd : pc.remoteDescription = none) :
    (handleSignalingMessage st { message_type := "candidate", payload := c }).1 =
      { st with error := some "Failed to handle signaling message" } ∧
    (handleSignalingMessage st { message_type := "candidate", payload := c }).2 = [] ∧
    (handleSignalingMessage
        { st with error := some "Failed to handle signaling message" }
        { message_type := "offer", payload := o }).1.peerConnection =
      some { pc with remoteDescription := some o,
                     localDescription := some ("answer:" ++ o) } := by
  refine ⟨?_, ?_, ?_⟩ <;>
    simp [handleSignalingMessage, h, hrd, PeerConn.addIceCandidate]

theorem candidate_before_description_dropped_witness :
    joinedState.peerConnection = some PeerConn.fresh ∧
    PeerConn.fresh.remoteDescription = none ∧
    (handleSignalingMessage joinedState
        { message_type := "candidate", payload := "cand1" }).1 =
      { joinedState with error := some "Failed to handle signaling message" } :=
  ⟨rfl, rfl,
    (candidate_before_description_dropped joinedState PeerConn.fresh
      "cand1" "offer1" rfl rfl).1⟩

/-- C1: round-trip.  For every file, feeding the message sequence that
`sendFile` produces (one metadata message followed by the chunks in send
order) into the receive path reconstructs a byte sequence identical to the
original file: the file is appended to `receivedFiles` exactly once, with
the original name, declared size and mime type and exactly the original
bytes, and the receive state is cleared.  This holds for every size,
including 0, 1, C−1, C, C+1 and 10·C where C = 16384. -/
theorem sendFile_roundtrip (sender receiver : HookState) (f : FileModel)
    (hch : sender.dataChannel = some ChannelReadyState.opened) :
    (sendFile sender f).thrown = none ∧
    processMessages receiver (sendFile sender f).messages =
      { receiver with
          receivedFiles := receiver.receivedFiles ++
            [{ name := f.name, size := f.size, mimeType := f.mimeType,
               data := f.content }],
          transferProgress := none,
          receivingFile := none } ∧
    (processMessages receiver (sendFile sender f).messages).receivedFiles.count
        { name := f.name, size := f.size, mimeType := f.mimeType, data := f.content } =
      receiver.receivedFiles.count
        { name := f.name, size := f.size, mimeType := f.mimeType, data := f.content } + 1 := by
  rw [sendFile_open sender f hch]
  dsimp only
  have hstate : processMessages receiver
      (DataMessage.metadata f.name f.size f.mimeType ::
        (sendChunksLoop f.content 0).map DataMessage.binary) =
      { receiver with
          receivedFiles := receiver.receivedFiles ++
            [{ name := f.name, size := f.size, mimeType := f.mimeType,
               data := f.content }],
          transferProgress := none,
          receivingFile := none } := by
    rw [processMessages_cons, handleIncomingData_metadata]
    refine Eq.trans (receive_chunks_state f.content 0 _ _ rfl rfl rfl (Nat.zero_le _)) ?_
    dsimp only
    rw [List.nil_append]
    rw [sendChunksLoop_flatten]
    rw [List.drop_zero]
  refine ⟨rfl, hstate, ?_⟩
  rw [hstate]
  dsimp only
  rw [List.count_append]
  rw [List.count_cons_self]
  rw [List.count_nil]

theorem sendFile_roundtrip_witness :
    openChannelState.dataChannel = some ChannelReadyState.opened ∧
    processMessages initialState
        (sendFile openChannelState
          { name := "a.txt", mimeType := "text/plain", content := [1, 2, 3] }).messages =
      { initialState with
          receivedFiles :=
            [{ name := "a.txt", size := 3, mimeType := "text/plain", data := [1, 2, 3] }],
          transferProgress := none,
          receivingFile := none } :=
  ⟨rfl,
    (sendFile_roundtrip openChannelState initialState
      { name := "a.txt", mimeType := "text/plain", content := [1, 2, 3] } rfl).2.1⟩

/-- C2 counterexample: the completion check is `receivedSize >= size`, not
an exact byte-count match.  With a declared size of 1 byte, a single
2-byte chunk materializes a `ReceivedFile` even though the cumulative
chunk length (2) never equals the declared size (1). -/
theorem exact_byte_count_counterexample :
    (handleIncomingData shortDeclaredState (DataMessage.binary [7, 8])).1.receivedFiles =
      [{ name := "f.bin", size := 1, mimeType := "application/x-bin", data := [7, 8] }] ∧
    (2 : Nat) ≠ 1 := by
  exact ⟨rfl, by decide⟩

/-- C2 amended: a `ReceivedFile` is appended exactly when the cumulative
length of the received binary chunks first reaches **or exceeds** the
declared metadata size (so the materialized bytes can overshoot the
declared size); for every run of chunks whose cumulative length stays
strictly below the declared size, `receivedFiles` is unchanged — no
partial file is ever exposed. -/
theorem received_file_exposure (st : HookState) (rf : ReceivingFile)
    (cs : List (List Nat)) (d : List Nat) (h : st.receivingFile = some rf) :
    (rf.receivedSize + (cs.map List.length).sum < rf.size →
      (processMessages st (cs.map DataMessage.binary)).receivedFiles = st.receivedFiles) ∧
    (rf.size ≤ rf.receivedSize + d.length →
      (handleIncomingData st (DataMessage.binary d)).1.receivedFiles =
        st.receivedFiles ++
          [{ name := rf.name, size := rf.size, mimeType := rf.mimeType,
             data := (rf.chunks ++ [d]).flatten }]) := by
  constructor
  · intro hlt
    exact (processMessages_incomplete cs st rf h hlt).1
  · intro hge
    rw [handleIncomingData_binary_complete st rf d h hge]

theorem received_file_exposure_witness :
    midStreamState.receivingFile = some midStreamFile ∧
    midStreamFile.receivedSize + ([[4, 5]].map List.length).sum < midStreamFile.size ∧
    midStreamFile.size ≤ midStreamFile.receivedSize + [9, 9, 9, 9, 9, 9, 9].length ∧
    (processMessages midStreamState ([[4, 5]].map DataMessage.binary)).receivedFiles =
      midStreamState.receivedFiles ∧
    (handleIncomingData midStreamState
        (DataMessage.binary [9, 9, 9, 9, 9, 9, 9])).1.receivedFiles =
      midStreamState.receivedFiles ++
        [{ name := "a.bin", size := 10, mimeType := "application/x-bin",
           data := [1, 2, 3, 9, 9, 9, 9, 9, 9, 9] }] :=
  ⟨rfl, by decide, by decide,
    (received_file_exposure midStreamState midStreamFile [[4, 5]]
      [9, 9, 9, 9, 9, 9, 9] rfl).1 (by decide),
    (received_file_exposure midStreamState midStreamFile [[4, 5]]
      [9, 9, 9, 9, 9, 9, 9] rfl).2 (by decide)⟩

/-- C4 counterexample: for an empty file the final progress value set
before the progress state is cleared is the value of `0 / 0 * 100`
(`NaN` in the implementation's floating point, `0` in this rational
model) — in either case not `100`, so the claim's "final progress is
exactly 100" fails at size 0. -/
theorem final_progress_empty_counterexample :
    ((sendFile openChannelState
        { name := "e.txt", mimeType := "text/plain", content := [] }).trace.getLast?).map
      FileTransferProgress.progress = some 0 ∧ ((0 : ℚ) ≠ 100) := by
  constructor
  · rw [sendFile_open openChannelState _ rfl]
    dsimp only
    rw [sendTraceLoop_neg _ _ _ _ _ (by decide)]
    rw [List.getLast?_cons_cons]
    simp [sliceAt]
  · norm_num

/-- C4 amended: during the send of a single **nonempty** file, and during
the receive of the message sequence it produces, the `transferredSize`
values of the successive `TransferProgress` states are non-decreasing,
every `progress` value equals `transferredSize / totalSize * 100` (exact
rational arithmetic) and lies within [0, 100], and the final progress
value set before the progress state is cleared at completion is exactly
100.  (For an empty file the final value is `0 / 0 * 100`, not 100.) -/
theorem progress_monotone_bounded (sender receiver : HookState) (f : FileModel)
    (hch : sender.dataChannel = some ChannelReadyState.opened)
    (hpos : 0 < f.content.length) :
    (List.Chain' (fun a b => a.transferredSize ≤ b.transferredSize)
        (sendFile sender f).trace ∧
      (∀ p ∈ (sendFile sender f).trace,
        p.progress = (p.transferredSize : ℚ) / (p.totalSize : ℚ) * 100 ∧
        0 ≤ p.progress ∧ p.progress ≤ 100) ∧
      ((sendFile sender f).trace.getLast?.map FileTransferProgress.progress =
        some 100)) ∧
    (List.Chain' (fun a b => a.transferredSize ≤ b.transferredSize)
        (processMessagesT receiver (sendFile sender f).messages).2 ∧
      (∀ p ∈ (processMessagesT receiver (sendFile sender f).messages).2,
        p.progress = (p.transferredSize : ℚ) / (p.totalSize : ℚ) * 100 ∧
        0 ≤ p.progress ∧ p.progress ≤ 100) ∧
      ((processMessagesT receiver (sendFile sender f).messages).2.getLast?.map
          FileTransferProgress.progress = some 100)) := by
  rw [sendFile_open sender f hch]
  dsimp only
  have hne : ((f.content.length : ℚ)) ≠ 0 := Nat.cast_ne_zero.mpr hpos.ne'
  obtain ⟨sall, schain, sq, hsq, hsqts, hsqtot, hsqp⟩ :=
    sendTraceLoop_spec f.content f.name f.size rfl f.content.length 0
      (by omega) (Nat.zero_le _)
  rw [processMessagesT_snd_cons, handleIncomingData_metadata]
  dsimp only
  rw [List.singleton_append]
  obtain ⟨rall, rchain, rq, hrq, hrqts, hrqtot, hrqp⟩ :=
    receive_chunks_trace f.content 0
      { receiver with
          receivingFile := some
            { name := f.name, size := f.size, mimeType := f.mimeType,
              receivedSize := 0, chunks := [] },
          transferProgress := some
            { fileName := f.name, progress := 0, totalSize := f.size,
              transferredSize := 0, isReceiving := true } }
      { name := f.name, size := f.size, mimeType := f.mimeType,
        receivedSize := 0, chunks := [] }
      rfl rfl rfl (Nat.zero_le _)
  refine ⟨⟨?_, ?_, ?_⟩, ?_, ?_, ?_⟩
  · rw [List.chain'_cons']
    exact ⟨fun y _ => Nat.zero_le _, schain⟩
  · intro p hp
    rcases List.mem_cons.mp hp with hp | hp
    · subst hp
      exact ⟨by simp, by norm_num, by norm_num⟩
    · obtain ⟨h1, h2, h3, h4, h5⟩ := sall p hp
      refine ⟨h3, ?_, ?_⟩
      · rw [h3, h1]
        exact (progress_bounds p.transferredSize f.content.length h5 hpos).1
      · rw [h3, h1]
        exact (progress_bounds p.transferredSize f.content.length h5 hpos).2
  · rw [getLast?_cons_of_getLast? _ _ _ hsq]
    rw [Option.map_some']
    rw [hsqp, hsqts, hsqtot]
    rw [div_self hne, one_mul]
  · rw [List.chain'_cons']
    exact ⟨fun y _ => Nat.zero_le _, rchain⟩
  · intro p hp
    rcases List.mem_cons.mp hp with hp | hp
    · subst hp
      exact ⟨by simp, by norm_num, by norm_num⟩
    · obtain ⟨h1, h2, h3, h4, h5⟩ := rall p hp
      refine ⟨h3, ?_, ?_⟩
      · rw [h3, h1]
        exact (progress_bounds p.transferredSize f.content.length h5 hpos).1
      · rw [h3, h1]
        exact (progress_bounds p.transferredSize f.content.length h5 hpos).2
  · rw [getLast?_cons_of_getLast? _ _ _ hrq]
    rw [Option.map_some']
    rw [hrqp, hrqts, hrqtot]
    rw [div_self hne, one_mul]

theorem progress_monotone_bounded_witness :
    openChannelState.dataChannel = some ChannelReadyState.opened ∧
    0 < ([1, 2, 3] : List Nat).length ∧
    ((sendFile openChannelState
        { name := "a.txt", mimeType := "text/plain", content := [1, 2, 3] }).trace.getLast?).map
      FileTransferProgress.progress = some 100 :=
  ⟨rfl, by decide,
    (progress_monotone_bounded openChannelState initialState
      { name := "a.txt", mimeType := "text/plain", content := [1, 2, 3] }
      rfl (by decide)).1.2.2⟩

end Drop
